import Mathlib

/-!
Shallow embedding of the record-synchronization engine of the
SakeMonkeyRecipeDB repository: the cell parsers, row codec, pull (sheet to
store) and push (store to sheet) functions of src/google_sheets_sync.py,
over the record shapes of src/models.py.  Sheet cells are strings; Python
float values are modeled as exact decimal numbers (an integer numerator
over a power of ten), which covers every literal the sheets carry; the
scientific-notation and infinity forms of Python float rendering, and the
whitespace tolerance of the float constructor, are outside the model.
The ingredients sync functions of the source still read an ID attribute
that models.py no longer declares, so their embeddings model the resulting
error paths - a pull that rolls back on any data row and a push that raises
before writing - rather than the unreachable merge and write branches.
-/

/-- Numeric value of an ASCII digit character. -/
def charVal (c : Char) : Nat := c.toNat - 48

/-- ASCII digit test; the character class the numeric and date parsers accept. -/
def isDigitCh (c : Char) : Bool := decide (48 ≤ c.toNat ∧ c.toNat ≤ 57)

/-- The digit character for a value below ten. -/
def digitChar : Nat → Char
  | 0 => '0' | 1 => '1' | 2 => '2' | 3 => '3' | 4 => '4'
  | 5 => '5' | 6 => '6' | 7 => '7' | 8 => '8' | 9 => '9'
  | _ => '?'

/-- Value of a big-endian list of digit characters. -/
def digitsToNat (cs : List Char) : Nat :=
  cs.foldl (fun a c => 10 * a + charVal c) 0

/-- Exactly `w` digit characters rendering `n % 10 ^ w`, zero padded. -/
def fixedDigits : Nat → Nat → List Char
  | 0, _ => []
  | w + 1, n => fixedDigits w (n / 10) ++ [digitChar (n % 10)]

/-- Digit characters of `n` (no leading zeros), with explicit fuel. -/
def natToCharsAux : Nat → Nat → List Char
  | 0, _ => []
  | _ + 1, 0 => []
  | fuel + 1, n + 1 => natToCharsAux fuel ((n + 1) / 10) ++ [digitChar ((n + 1) % 10)]

/-- Decimal digit characters of a natural number, as Python str renders it. -/
def natToChars (n : Nat) : List Char :=
  if n = 0 then ['0'] else natToCharsAux n n

/-- Python str of an int. -/
def intStr (n : Int) : String :=
  if n < 0 then String.mk ('-' :: natToChars n.natAbs) else String.mk (natToChars n.natAbs)

/-- A calendar date as datetime.date carries it. -/
structure SDate where
  year : Nat
  month : Nat
  day : Nat
  deriving DecidableEq

/-- Gregorian leap-year rule, as datetime implements it. -/
def isLeap (y : Nat) : Bool := (y % 4 = 0 && y % 100 != 0) || y % 400 = 0

/-- Days of a month, as datetime validates them. -/
def daysInMonth (y m : Nat) : Nat :=
  if m = 2 then (if isLeap y then 29 else 28)
  else if m = 4 ∨ m = 6 ∨ m = 9 ∨ m = 11 then 30 else 31

/-- The dates datetime.date can hold: calendar valid, year 1 to 9999. -/
def validDate (d : SDate) : Prop :=
  1 ≤ d.year ∧ d.year ≤ 9999 ∧ 1 ≤ d.month ∧ d.month ≤ 12 ∧
    1 ≤ d.day ∧ d.day ≤ daysInMonth d.year d.month

instance validDateDecidable (d : SDate) : Decidable (validDate d) := by
  unfold validDate
  exact inferInstance

/-- strftime of a date with format Y-m-d: zero-padded 4, 2 and 2 digits. -/
def dateStr (d : SDate) : String :=
  String.mk (fixedDigits 4 d.year ++ '-' :: (fixedDigits 2 d.month ++ '-' :: fixedDigits 2 d.day))

/-- A Python float value, modeled exactly: the rational num / 10 ^ exp. -/
structure DecNum where
  num : Int
  exp : Nat
  deriving DecidableEq

/-- The rational value of a decimal number. -/
def DecNum.toQ (d : DecNum) : ℚ := (d.num : ℚ) / (10 : ℚ) ^ d.exp

/-- Python str of a float: sign, integer part, point, fraction digits. -/
def floatStr (d : DecNum) : String :=
  let a := d.num.natAbs
  let p := 10 ^ d.exp
  let fracChars := if d.exp = 0 then ['0'] else fixedDigits d.exp (a % p)
  let signChars : List Char := if d.num < 0 then ['-'] else []
  String.mk (signChars ++ natToChars (a / p) ++ '.' :: fracChars)

/-- Strip one optional leading sign, reporting whether it was a minus. -/
def splitSign (cs : List Char) : Bool × List Char :=
  match cs with
  | c :: rest => if c = '-' then (true, rest) else if c = '+' then (false, rest) else (false, cs)
  | [] => (false, cs)

/-- The exponent marker characters of a float literal. -/
def isExpChar (c : Char) : Bool := c == 'e' || c == 'E'

/-- Unsigned mantissa of a float literal: digits with an optional point and
fraction, at least one digit overall.  Returns numerator and fraction length. -/
def parseMantissa (cs : List Char) : Option (Nat × Nat) :=
  let ip := cs.takeWhile isDigitCh
  match cs.dropWhile isDigitCh with
  | [] => if ip.isEmpty then none else some (digitsToNat ip, 0)
  | '.' :: frac =>
    if frac.all isDigitCh && !(ip.isEmpty && frac.isEmpty) then
      some (digitsToNat ip * 10 ^ frac.length + digitsToNat frac, frac.length)
    else none
  | _ => none

/-- Assemble sign, mantissa and signed decimal exponent into a DecNum. -/
def mkDecNum (neg : Bool) (m f : Nat) (e : Int) : DecNum :=
  let sm : Int := if neg then -(m : Int) else (m : Int)
  if 0 ≤ e then ⟨sm * 10 ^ e.toNat, f⟩ else ⟨sm, f + e.natAbs⟩

/-- The float constructor on a finite decimal literal: optional sign,
mantissa, optional exponent part. -/
def parseFloatChars (cs : List Char) : Option DecNum :=
  let (neg, cs1) := splitSign cs
  let mant := cs1.takeWhile (fun c => !isExpChar c)
  match parseMantissa mant, cs1.dropWhile (fun c => !isExpChar c) with
  | some (m, f), [] => some (mkDecNum neg m f 0)
  | some (m, f), _ :: ec =>
    let (eneg, ed) := splitSign ec
    if !ed.isEmpty && ed.all isDigitCh then
      some (mkDecNum neg m f (if eneg then -(digitsToNat ed : Int) else (digitsToNat ed : Int)))
    else none
  | none, _ => none

/-- parse_float of google_sheets_sync.py: empty or unparsable gives none. -/
def parse_float (value : String) : Option DecNum :=
  if value = "" then none else parseFloatChars value.data

/-- Truncation toward zero of num / 10 ^ exp, as the int constructor applied
to a float truncates. -/
def truncDec (d : DecNum) : Int := d.num.tdiv ((10 : Int) ^ d.exp)

/-- parse_int of google_sheets_sync.py: int (float value), none on failure. -/
def parse_int (value : String) : Option Int :=
  if value = "" then none else (parseFloatChars value.data).map truncDec

/-- Split a character list on a separator character. -/
def splitOnChar (sep : Char) : List Char → List (List Char)
  | [] => [[]]
  | c :: cs =>
    if c = sep then [] :: splitOnChar sep cs
    else
      match splitOnChar sep cs with
      | [] => [[c]]
      | g :: gs => (c :: g) :: gs

/-- strptime year field: exactly four digits. -/
def parseY4 (cs : List Char) : Option Nat :=
  if cs.length = 4 ∧ cs.all isDigitCh = true then some (digitsToNat cs) else none

/-- strptime month or day field: one or two digits, between 1 and hi. -/
def parseNN (hi : Nat) (cs : List Char) : Option Nat :=
  if (cs.length = 1 ∨ cs.length = 2) ∧ cs.all isDigitCh = true then
    if 1 ≤ digitsToNat cs ∧ digitsToNat cs ≤ hi then some (digitsToNat cs) else none
  else none

/-- Build a date from year, month and day fields, with the calendar
validation datetime.date performs. -/
def mkDate (ys ms ds : List Char) : Option SDate :=
  match parseY4 ys, parseNN 12 ms, parseNN 31 ds with
  | some y, some m, some d =>
    if 1 ≤ y ∧ d ≤ daysInMonth y m then some ⟨y, m, d⟩ else none
  | _, _, _ => none

/-- parse_date format list on characters.  The source tries the formats
Y-m-d, m/d/Y, d/m/Y, Y/m/d in order; a string that splits into three
dash-separated all-digit fields cannot match a slash format and conversely,
so splitting once per separator preserves the first-success order. -/
def parseDateChars (cs : List Char) : Option SDate :=
  match splitOnChar '-' cs with
  | [a, b, c] => mkDate a b c
  | _ =>
    match splitOnChar '/' cs with
    | [a, b, c] => (mkDate c a b).orElse fun _ => (mkDate c b a).orElse fun _ => mkDate a b c
    | _ => none

/-- parse_date of google_sheets_sync.py. -/
def parse_date (value : String) : Option SDate :=
  if value = "" then none else parseDateChars value.data

/-- ASCII lower casing of one character, as str.lower acts on the inputs here. -/
def lowerCh (c : Char) : Char :=
  if 65 ≤ c.toNat ∧ c.toNat ≤ 90 then Char.ofNat (c.toNat + 32) else c

/-- ASCII lower casing of a string. -/
def toLowerStr (s : String) : String := String.mk (s.data.map lowerCh)

/-- The truthy strings of parse_bool. -/
def boolWords : List String := ["true", "yes", "1", "x", "checked"]

/-- parse_bool of google_sheets_sync.py: empty is false, otherwise membership
of the lower-cased value in the accepted word list. -/
def parse_bool (value : String) : Bool :=
  if value = "" then false else decide (toLowerStr value ∈ boolWords)

/-- A dynamically-typed Python value, as the record fields and row cells
hold them. -/
inductive PyVal where
  | pyNone
  | pyBool (b : Bool)
  | pyInt (n : Int)
  | pyFloat (x : DecNum)
  | pyDate (d : SDate)
  | pyStr (s : String)
  deriving DecidableEq

/-- Python truthiness of a value. -/
def PyVal.truthy : PyVal → Bool
  | .pyNone => false
  | .pyBool b => b
  | .pyInt n => decide (n ≠ 0)
  | .pyFloat x => decide (x.toQ ≠ 0)
  | .pyDate _ => true
  | .pyStr s => decide (s ≠ "")

/-- format_value_for_sheet of google_sheets_sync.py: none as empty cell,
booleans as TRUE and FALSE, dates via strftime, the rest via str. -/
def format_value_for_sheet : PyVal → String
  | .pyNone => ""
  | .pyBool b => if b then "TRUE" else "FALSE"
  | .pyDate d => dateStr d
  | .pyInt n => intStr n
  | .pyFloat x => floatStr x
  | .pyStr s => s

/-- parse_int applied to an optional cell (dict get may return none). -/
def pyParseInt (v : Option String) : PyVal :=
  match v with
  | some s => match parse_int s with | some n => .pyInt n | none => .pyNone
  | none => .pyNone

/-- parse_float applied to an optional cell. -/
def pyParseFloat (v : Option String) : PyVal :=
  match v with
  | some s => match parse_float s with | some x => .pyFloat x | none => .pyNone
  | none => .pyNone

/-- parse_date applied to an optional cell. -/
def pyParseDate (v : Option String) : PyVal :=
  match v with
  | some s => match parse_date s with | some d => .pyDate d | none => .pyNone
  | none => .pyNone

/-- parse_bool applied to an optional cell; none is falsy and gives false. -/
def pyParseBool (v : Option String) : PyVal :=
  match v with
  | some s => .pyBool (parse_bool s)
  | none => .pyBool false

/-- A raw dict get: a missing key is Python None, a present cell a string. -/
def pyGetStr (v : Option String) : PyVal :=
  match v with
  | some s => .pyStr s
  | none => .pyNone

/-- Python or on two values: the first if truthy, else the second. -/
def pyOrVal (a b : PyVal) : PyVal := if a.truthy then a else b

/-- Python or of an optional string against a string default. -/
def pyOrStr (a : Option String) (b : String) : String :=
  match a with
  | some s => if s = "" then b else s
  | none => b

/-- Truthiness of an optional cell string. -/
def truthyStrOpt (a : Option String) : Bool :=
  match a with
  | some s => decide (s ≠ "")
  | none => false

/-- Python str.strip on the whitespace the header cells can carry. -/
def isSpaceCh (c : Char) : Bool := [' ', '\t', '\n', '\r'].contains c

/-- Characters of a string with surrounding whitespace removed. -/
def stripChars (cs : List Char) : List Char :=
  ((cs.dropWhile isSpaceCh).reverse.dropWhile isSpaceCh).reverse

/-- Python str.strip. -/
def stripStr (s : String) : String := String.mk (stripChars s.data)

/-- A decoded sheet row: the zip of header names with cell strings.  Lookup
takes the last binding, matching Python dict construction from zip. -/
abbrev RowDict := List (String × String)

/-- Dict lookup on a decoded row. -/
def rowLookup (r : RowDict) (k : String) : Option String := List.lookup k r.reverse

/-- get_sheet_data of google_sheets_sync.py on the raw cell grid: strip the
header row, zero-pad every data row with empty cells up to the header length,
zip each padded row with the headers. -/
def get_sheet_data (values : List (List String)) : List RowDict :=
  match values with
  | [] => []
  | headers :: rows =>
    let hs := headers.map stripStr
    rows.map fun row => hs.zip (row ++ List.replicate (hs.length - row.length) "")

/-- The ingredients record of models.py: its only key field is ingredientID
(a string column); the model has no ID field, that line is commented out in
the source. -/
structure Ingredient where
  ingredientID : PyVal
  ingredient_type : PyVal
  acc_date : PyVal
  source : PyVal
  description : PyVal
  deriving DecidableEq

/-- The Ingredient the constructor call of sync_ingredients_from_sheet
creates: the call passes an ID keyword, but the model declares no ID field,
so that keyword is dropped and ingredientID keeps its default None; the
remaining keywords are stored as given. -/
def buildIngredient (r : RowDict) : Ingredient :=
  { ingredientID := .pyNone
    ingredient_type := .pyStr (pyOrStr (rowLookup r "ingredient_type")
      (match rowLookup r "type" with | some s => s | none => ""))
    acc_date := pyParseDate (rowLookup r "acc_date")
    source := pyGetStr (rowLookup r "source")
    description := pyGetStr (rowLookup r "description") }

/-- One field of the merge loop: a candidate value that is not None
overwrites, a None candidate leaves the stored value. -/
def mergeField (cand old : PyVal) : PyVal := if cand = .pyNone then old else cand

/-- sync_ingredients_from_sheet: with no data rows the loop body never runs
and the empty batch commits; with any data row, reading the ID attribute of
the freshly built candidate raises AttributeError (the model has no such
attribute), the handler prints the error and rolls the session back.  The
result pairs the store, which is unchanged in both cases, with whether the
batch committed; the merge loop of the source is unreachable here. -/
def sync_ingredients_from_sheet (values : List (List String)) (store : List Ingredient) :
    List Ingredient × Bool :=
  match get_sheet_data values with
  | [] => (store, true)
  | _ :: _ => (store, false)

/-- The starters record of models.py, dynamically typed as the code uses it. -/
structure Starter where
  StarterBatch : PyVal
  Date : PyVal
  BatchID : PyVal
  Amt_Kake : PyVal
  Amt_Koji : PyVal
  Amt_water : PyVal
  water_type : PyVal
  Kake : PyVal
  Koji : PyVal
  yeast : PyVal
  lactic_acid : PyVal
  MgSO4 : PyVal
  KCl : PyVal
  temp_C : PyVal
  deriving DecidableEq

/-- The recipe record of models.py, dynamically typed as the code uses it. -/
structure Recipe where
  batchID : PyVal
  start_date : PyVal
  pouch_date : PyVal
  batch : PyVal
  style : PyVal
  kake : PyVal
  koji : PyVal
  yeast : PyVal
  starter : PyVal
  water_type : PyVal
  total_kake_g : PyVal
  total_koji_g : PyVal
  total_water_mL : PyVal
  ferment_temp_C : PyVal
  Addition1_Notes : PyVal
  Addition2_Notes : PyVal
  Addition3_Notes : PyVal
  ferment_finish_gravity : PyVal
  ferment_finish_brix : PyVal
  final_measured_temp_C : PyVal
  final_measured_gravity : PyVal
  final_measured_Brix_pct : PyVal
  final_gravity : PyVal
  ABV_pct : PyVal
  SMV : PyVal
  final_water_addition_mL : PyVal
  clarified : PyVal
  pasteurized : PyVal
  pasteurization_notes : PyVal
  finishing_additions : PyVal
  deriving DecidableEq

/-- The candidate Recipe sync_recipes_from_sheet builds from a row. -/
def buildRecipe (r : RowDict) : Recipe :=
  { batchID := pyGetStr (rowLookup r "batchID")
    start_date := pyParseDate (rowLookup r "start_date")
    pouch_date := pyParseDate (rowLookup r "pouch_date")
    batch := pyParseInt (rowLookup r "batch")
    style := pyGetStr (rowLookup r "style")
    kake := pyParseInt (rowLookup r "kake")
    koji := pyParseInt (rowLookup r "koji")
    yeast := pyParseInt (rowLookup r "yeast")
    starter := pyParseInt (rowLookup r "starter")
    water_type := pyParseInt (rowLookup r "water_type")
    total_kake_g := pyParseFloat (rowLookup r "total_kake_g")
    total_koji_g := pyParseFloat (rowLookup r "total_koji_g")
    total_water_mL := pyParseFloat (rowLookup r "total_water_mL")
    ferment_temp_C := pyParseFloat (rowLookup r "ferment_temp_C")
    Addition1_Notes := pyGetStr (rowLookup r "Addition1_Notes")
    Addition2_Notes := pyGetStr (rowLookup r "Addition2_Notes")
    Addition3_Notes := pyGetStr (rowLookup r "Addition3_Notes")
    ferment_finish_gravity := pyParseFloat (rowLookup r "ferment_finish_gravity")
    ferment_finish_brix := pyParseFloat (rowLookup r "ferment_finish_brix")
    final_measured_temp_C := pyParseFloat (rowLookup r "final_measured_temp_C")
    final_measured_gravity := pyParseFloat (rowLookup r "final_measured_gravity")
    final_measured_Brix_pct := pyParseFloat (rowLookup r "final_measured_Brix_%")
    final_gravity := pyParseFloat (rowLookup r "final_gravity")
    ABV_pct := pyParseFloat (rowLookup r "ABV_%")
    SMV := pyParseFloat (rowLookup r "SMV")
    final_water_addition_mL := pyParseFloat (rowLookup r "final_water_addition_mL")
    clarified := pyParseBool (rowLookup r "clarified")
    pasteurized := pyParseBool (rowLookup r "pasteurized")
    pasteurization_notes := pyGetStr (rowLookup r "pasteurization_notes")
    finishing_additions := pyGetStr (rowLookup r "finishing_additions") }

/-- The merge loop on a recipe, key field excluded. -/
def mergeRecipe (existing cand : Recipe) : Recipe :=
  { batchID := existing.batchID
    start_date := mergeField cand.start_date existing.start_date
    pouch_date := mergeField cand.pouch_date existing.pouch_date
    batch := mergeField cand.batch existing.batch
    style := mergeField cand.style existing.style
    kake := mergeField cand.kake existing.kake
    koji := mergeField cand.koji existing.koji
    yeast := mergeField cand.yeast existing.yeast
    starter := mergeField cand.starter existing.starter
    water_type := mergeField cand.water_type existing.water_type
    total_kake_g := mergeField cand.total_kake_g existing.total_kake_g
    total_koji_g := mergeField cand.total_koji_g existing.total_koji_g
    total_water_mL := mergeField cand.total_water_mL existing.total_water_mL
    ferment_temp_C := mergeField cand.ferment_temp_C existing.ferment_temp_C
    Addition1_Notes := mergeField cand.Addition1_Notes existing.Addition1_Notes
    Addition2_Notes := mergeField cand.Addition2_Notes existing.Addition2_Notes
    Addition3_Notes := mergeField cand.Addition3_Notes existing.Addition3_Notes
    ferment_finish_gravity := mergeField cand.ferment_finish_gravity existing.ferment_finish_gravity
    ferment_finish_brix := mergeField cand.ferment_finish_brix existing.ferment_finish_brix
    final_measured_temp_C := mergeField cand.final_measured_temp_C existing.final_measured_temp_C
    final_measured_gravity := mergeField cand.final_measured_gravity existing.final_measured_gravity
    final_measured_Brix_pct := mergeField cand.final_measured_Brix_pct existing.final_measured_Brix_pct
    final_gravity := mergeField cand.final_gravity existing.final_gravity
    ABV_pct := mergeField cand.ABV_pct existing.ABV_pct
    SMV := mergeField cand.SMV existing.SMV
    final_water_addition_mL := mergeField cand.final_water_addition_mL existing.final_water_addition_mL
    clarified := mergeField cand.clarified existing.clarified
    pasteurized := mergeField cand.pasteurized existing.pasteurized
    pasteurization_notes := mergeField cand.pasteurization_notes existing.pasteurization_notes
    finishing_additions := mergeField cand.finishing_additions existing.finishing_additions }

/-- session.get on the recipe store by primary key. -/
def storeFindRecipe (store : List Recipe) (k : PyVal) : Option Recipe :=
  if k = .pyNone then none else store.find? fun x => decide (x.batchID = k)

/-- Apply the merge to the first stored recipe carrying the key. -/
def updateFirstRecipe : List Recipe → PyVal → Recipe → List Recipe
  | [], _, _ => []
  | x :: xs, k, cand =>
    if x.batchID = k then mergeRecipe x cand :: xs else x :: updateFirstRecipe xs k cand

/-- One loop iteration of sync_recipes_from_sheet. -/
def recipeStep (store : List Recipe) (r : RowDict) : List Recipe :=
  let rcp := buildRecipe r
  match storeFindRecipe store rcp.batchID with
  | some _ => updateFirstRecipe store rcp.batchID rcp
  | none => store ++ [rcp]

/-- sync_recipes_from_sheet: decode the sheet and fold the insert-or-merge
step over its rows. -/
def sync_recipes_from_sheet (values : List (List String)) (store : List Recipe) :
    List Recipe :=
  (get_sheet_data values).foldl recipeStep store

/-- A row dict the push code builds before rendering: header name to value. -/
abbrev RowDictV := List (String × PyVal)

/-- Dict get with default on a push row. -/
def rowGetDV (r : RowDictV) (k : String) (dflt : PyVal) : PyVal :=
  match List.lookup k r.reverse with
  | some v => v
  | none => dflt

/-- The remote write a push run performs.  updateAt is the values update at
column A of the given start row; writeReplace is write_sheet_data, which
writes the header row and the data rows from row 1 and clears the rows
beyond them; errored is a push that raised before issuing any write. -/
inductive PushEffect where
  | noop
  | updateAt (startRow : Nat) (values : List (List String))
  | writeReplace (headers : List String) (values : List (List String))
  | errored
  deriving DecidableEq

/-- Whether an effect is the append-branch values update. -/
def PushEffect.isUpdateAt : PushEffect → Bool
  | .updateAt _ _ => true
  | _ => false

/-- Whether an effect is the write-headers-and-data branch. -/
def PushEffect.isWriteReplace : PushEffect → Bool
  | .writeReplace _ _ => true
  | _ => false

/-- The row the first write of an effect lands on, if it writes at all. -/
def PushEffect.firstWrittenRow : PushEffect → Option Nat
  | .noop => none
  | .updateAt k _ => some k
  | .writeReplace _ _ => some 1
  | .errored => none

/-- The cell comprehension both push branches share: each row dict rendered
through format_value_for_sheet in header order. -/
def renderRows (headers : List String) (rows : List RowDictV) : List (List String) :=
  rows.map fun row => headers.map fun h => format_value_for_sheet (rowGetDV row h (.pyStr ""))

/-- sync_ingredients_to_sheet: the new-record comprehension evaluates
ing.ID on each stored ingredient, an attribute the model does not have.
With an empty store the comprehension is empty, nothing is new and nothing
is written; with any stored ingredient the first ing.ID read raises
AttributeError, the handler prints the error and re-raises, and no write is
ever issued, so the key filtering and both write branches of the source are
unreachable for this entity. -/
def sync_ingredients_to_sheet (db : List Ingredient) (_values : List (List String)) :
    PushEffect :=
  if db.isEmpty then .noop else .errored

/-- The header list sync_starters_to_sheet writes. -/
def starterSheetHeaders : List String :=
  ["StarterBatch", "Date", "BatchID", "Amt_Kake", "Amt_Koji", "Amt_water",
   "water_type", "Kake", "Koji", "yeast", "lactic_acid", "MgSO4", "KCl", "temp_C"]

/-- The row dict sync_starters_to_sheet builds for one new starter. -/
def starterPushRow (st : Starter) : RowDictV :=
  [("StarterBatch", st.StarterBatch),
   ("Date", .pyStr (format_value_for_sheet st.Date)),
   ("BatchID", pyOrVal st.BatchID (.pyStr "")),
   ("Amt_Kake", .pyStr (format_value_for_sheet st.Amt_Kake)),
   ("Amt_Koji", .pyStr (format_value_for_sheet st.Amt_Koji)),
   ("Amt_water", .pyStr (format_value_for_sheet st.Amt_water)),
   ("water_type", .pyStr (format_value_for_sheet st.water_type)),
   ("Kake", .pyStr (format_value_for_sheet st.Kake)),
   ("Koji", .pyStr (format_value_for_sheet st.Koji)),
   ("yeast", .pyStr (format_value_for_sheet st.yeast)),
   ("lactic_acid", .pyStr (format_value_for_sheet st.lactic_acid)),
   ("MgSO4", .pyStr (format_value_for_sheet st.MgSO4)),
   ("KCl", .pyStr (format_value_for_sheet st.KCl)),
   ("temp_C", .pyStr (format_value_for_sheet st.temp_C))]

/-- sync_starters_to_sheet: collect the remote keys by integer-coercing the
StarterBatch cell of every truthy-keyed sheet row, keep the stored starters
whose truthy StarterBatch is not among them, and write as for ingredients. -/
def sync_starters_to_sheet (db : List Starter) (values : List (List String)) :
    PushEffect :=
  let sheet_records := get_sheet_data values
  let existing_batches : List PyVal :=
    (sheet_records.filter fun r => truthyStrOpt (rowLookup r "StarterBatch")).map
      fun r => pyParseInt (rowLookup r "StarterBatch")
  let new_starters := db.filter fun st =>
    st.StarterBatch.truthy && !(decide (st.StarterBatch ∈ existing_batches))
  if new_starters.isEmpty then .noop
  else
    let new_rows := new_starters.map starterPushRow
    if sheet_records.isEmpty then
      .writeReplace starterSheetHeaders (renderRows starterSheetHeaders new_rows)
    else
      .updateAt (sheet_records.length + 2) (renderRows starterSheetHeaders new_rows)

/-- The header list sync_recipes_to_sheet writes, also the header row of the
remote Recipe sheet. -/
def recipeSheetHeaders : List String :=
  ["batchID", "start_date", "pouch_date", "batch", "style", "kake", "koji", "yeast",
   "starter", "water_type", "total_kake_g", "total_koji_g", "total_water_mL",
   "ferment_temp_C", "Addition1_Notes", "Addition2_Notes", "Addition3_Notes",
   "ferment_finish_gravity", "ferment_finish_brix", "final_measured_temp_C",
   "final_measured_gravity", "final_measured_Brix_%", "final_gravity", "ABV_%",
   "SMV", "final_water_addition_mL", "clarified", "pasteurized",
   "pasteurization_notes", "finishing_additions"]

theorem charVal_digitChar {d : Nat} (h : d < 10) : charVal (digitChar d) = d := by
  interval_cases d <;> decide

theorem isDigitCh_digitChar {d : Nat} (h : d < 10) : isDigitCh (digitChar d) = true := by
  interval_cases d <;> decide

theorem digit_ne_of_isDigitCh {c ch : Char} (h : isDigitCh c = true)
    (hch : isDigitCh ch = false) : c ≠ ch := by
  intro heq
  rw [heq, hch] at h
  exact Bool.false_ne_true h

theorem mod_pow_split (n w : Nat) :
    n % 10 ^ (w + 1) = 10 * (n / 10 % 10 ^ w) + n % 10 := by
  have hp : 0 < 10 ^ w := Nat.pos_pow_of_pos w (by norm_num)
  have h1 : n % 10 < 10 := Nat.mod_lt _ (by norm_num)
  have h2 : n / 10 % 10 ^ w < 10 ^ w := Nat.mod_lt _ hp
  have hq : 10 ^ (w + 1) * (n / 10 / 10 ^ w) = 10 * (10 ^ w * (n / 10 / 10 ^ w)) := by ring
  have h3 : n = 10 * (n / 10 % 10 ^ w) + n % 10 + 10 ^ (w + 1) * (n / 10 / 10 ^ w) := by
    have d1 := Nat.div_add_mod n 10
    have d2 := Nat.div_add_mod (n / 10) (10 ^ w)
    omega
  have hpow : 10 ^ (w + 1) = 10 * 10 ^ w := by ring
  calc n % 10 ^ (w + 1)
      = (10 * (n / 10 % 10 ^ w) + n % 10 + 10 ^ (w + 1) * (n / 10 / 10 ^ w)) % 10 ^ (w + 1) := by
        rw [← h3]
    _ = (10 * (n / 10 % 10 ^ w) + n % 10) % 10 ^ (w + 1) := by
        rw [Nat.add_mul_mod_self_left]
    _ = 10 * (n / 10 % 10 ^ w) + n % 10 := by
        apply Nat.mod_eq_of_lt
        omega

theorem foldl_fixedDigits (w : Nat) : ∀ (n acc : Nat),
    List.foldl (fun a c => 10 * a + charVal c) acc (fixedDigits w n) =
      acc * 10 ^ w + n % 10 ^ w := by
  induction w with
  | zero => intro n acc; simp [fixedDigits, Nat.mod_one]
  | succ w ih =>
    intro n acc
    rw [fixedDigits, List.foldl_append, ih]
    simp only [List.foldl_cons, List.foldl_nil]
    rw [charVal_digitChar (Nat.mod_lt _ (by norm_num)), mod_pow_split]
    ring

theorem length_fixedDigits (w : Nat) : ∀ n, (fixedDigits w n).length = w := by
  induction w with
  | zero => intro n; rfl
  | succ w ih => intro n; rw [fixedDigits]; simp [ih]

theorem all_isDigitCh_fixedDigits (w : Nat) : ∀ n, (fixedDigits w n).all isDigitCh = true := by
  induction w with
  | zero => intro n; rfl
  | succ w ih =>
    intro n
    rw [fixedDigits, List.all_append, ih]
    simp [isDigitCh_digitChar (Nat.mod_lt n (by norm_num))]

theorem digitsToNat_fixedDigits {w n : Nat} (h : n < 10 ^ w) :
    digitsToNat (fixedDigits w n) = n := by
  rw [digitsToNat, foldl_fixedDigits]
  rw [Nat.zero_mul, Nat.zero_add, Nat.mod_eq_of_lt h]

theorem foldl_natToCharsAux (fuel : Nat) : ∀ (n acc : Nat), n ≤ fuel →
    List.foldl (fun a c => 10 * a + charVal c) acc (natToCharsAux fuel n) =
      acc * 10 ^ (natToCharsAux fuel n).length + n := by
  induction fuel with
  | zero =>
    intro n acc h
    interval_cases n
    simp [natToCharsAux]
  | succ fuel ih =>
    intro n acc h
    match n with
    | 0 => simp [natToCharsAux]
    | m + 1 =>
      rw [natToCharsAux, List.foldl_append]
      have hdiv : (m + 1) / 10 ≤ fuel := by
        have := Nat.div_lt_self (Nat.succ_pos m) (by norm_num : (1 : Nat) < 10)
        omega
      rw [ih ((m + 1) / 10) acc hdiv]
      simp only [List.foldl_cons, List.foldl_nil, List.length_append, List.length_cons,
        List.length_nil, Nat.zero_add]
      rw [charVal_digitChar (Nat.mod_lt _ (by norm_num))]
      have hmod := Nat.div_add_mod (m + 1) 10
      have key : 10 * (acc * 10 ^ (natToCharsAux fuel ((m + 1) / 10)).length) =
          acc * 10 ^ ((natToCharsAux fuel ((m + 1) / 10)).length + 1) := by ring
      omega

theorem all_isDigitCh_natToCharsAux (fuel : Nat) : ∀ n,
    (natToCharsAux fuel n).all isDigitCh = true := by
  induction fuel with
  | zero => intro n; rfl
  | succ fuel ih =>
    intro n
    match n with
    | 0 => rfl
    | m + 1 =>
      rw [natToCharsAux, List.all_append, ih]
      simp [isDigitCh_digitChar (Nat.mod_lt _ (by norm_num : (0 : Nat) < 10))]

theorem digitsToNat_natToChars (n : Nat) : digitsToNat (natToChars n) = n := by
  rw [natToChars]
  by_cases h : n = 0
  · subst h; rfl
  · rw [if_neg h, digitsToNat, foldl_natToCharsAux n n 0 (le_refl n)]
    simp

theorem all_isDigitCh_natToChars (n : Nat) : (natToChars n).all isDigitCh = true := by
  rw [natToChars]
  by_cases h : n = 0
  · subst h; rfl
  · rw [if_neg h]; exact all_isDigitCh_natToCharsAux n n

theorem natToChars_ne_nil (n : Nat) : natToChars n ≠ [] := by
  rw [natToChars]
  by_cases h : n = 0
  · subst h; simp
  · rw [if_neg h]
    intro he
    have h1 := foldl_natToCharsAux n n 0 (le_refl n)
    rw [he] at h1
    simp at h1
    exact h (h1.symm)

theorem takeWhile_all {α : Type} {p : α → Bool} : ∀ {l : List α}, l.all p = true →
    l.takeWhile p = l := by
  intro l h
  induction l with
  | nil => rfl
  | cons x xs ih =>
    simp only [List.all_cons, Bool.and_eq_true] at h
    rw [List.takeWhile_cons, h.1]
    simp [ih h.2]

theorem dropWhile_all {α : Type} {p : α → Bool} : ∀ {l : List α}, l.all p = true →
    l.dropWhile p = [] := by
  intro l h
  induction l with
  | nil => rfl
  | cons x xs ih =>
    simp only [List.all_cons, Bool.and_eq_true] at h
    rw [List.dropWhile_cons, h.1]
    exact ih h.2

theorem takeWhile_all_append {α : Type} {p : α → Bool} {c : α} {ys : List α}
    (hc : p c = false) : ∀ {l : List α}, l.all p = true →
    (l ++ c :: ys).takeWhile p = l := by
  intro l h
  induction l with
  | nil => simp [List.takeWhile_cons, hc]
  | cons x xs ih =>
    simp only [List.all_cons, Bool.and_eq_true] at h
    rw [List.cons_append, List.takeWhile_cons, h.1]
    simp [ih h.2]

theorem dropWhile_all_append {α : Type} {p : α → Bool} {c : α} {ys : List α}
    (hc : p c = false) : ∀ {l : List α}, l.all p = true →
    (l ++ c :: ys).dropWhile p = c :: ys := by
  intro l h
  induction l with
  | nil => simp [List.dropWhile_cons, hc]
  | cons x xs ih =>
    simp only [List.all_cons, Bool.and_eq_true] at h
    rw [List.cons_append, List.dropWhile_cons, h.1]
    exact ih h.2

theorem splitOnChar_no_sep {sep : Char} : ∀ {l : List Char}, (∀ c ∈ l, c ≠ sep) →
    splitOnChar sep l = [l] := by
  intro l h
  induction l with
  | nil => rfl
  | cons x xs ih =>
    have hx : x ≠ sep := h x (List.mem_cons_self x xs)
    rw [splitOnChar, if_neg hx, ih fun c hc => h c (List.mem_cons_of_mem x hc)]

theorem splitOnChar_append {sep : Char} {b : List Char} : ∀ {a : List Char},
    (∀ c ∈ a, c ≠ sep) →
    splitOnChar sep (a ++ sep :: b) = a :: splitOnChar sep b := by
  intro a h
  induction a with
  | nil =>
    rw [List.nil_append, splitOnChar, if_pos rfl]
  | cons x xs ih =>
    have hx : x ≠ sep := h x (List.mem_cons_self x xs)
    rw [List.cons_append, splitOnChar, if_neg hx,
      ih fun c hc => h c (List.mem_cons_of_mem x hc)]

theorem mkStr_ne_empty {l : List Char} (h : l ≠ []) : String.mk l ≠ "" := by
  intro he
  exact h (congrArg String.data he)

theorem isEmpty_false_of_ne_nil {α : Type} {l : List α} (h : l ≠ []) : l.isEmpty = false := by
  cases l
  · exact absurd rfl h
  · rfl

theorem parseMantissa_digits {cs : List Char} (h : cs.all isDigitCh = true) (hne : cs ≠ []) :
    parseMantissa cs = some (digitsToNat cs, 0) := by
  simp only [parseMantissa, takeWhile_all h, dropWhile_all h,
    isEmpty_false_of_ne_nil hne, Bool.false_eq_true, if_false]

theorem parseMantissa_point {a f : List Char} (ha : a.all isDigitCh = true) (hne : a ≠ [])
    (hf : f.all isDigitCh = true) :
    parseMantissa (a ++ '.' :: f) =
      some (digitsToNat a * 10 ^ f.length + digitsToNat f, f.length) := by
  have hdot : isDigitCh '.' = false := by decide
  simp only [parseMantissa, takeWhile_all_append hdot ha, dropWhile_all_append hdot ha, hf,
    isEmpty_false_of_ne_nil hne, Bool.false_and, Bool.not_false, Bool.true_and, if_true]

theorem notExp_of_digit {c : Char} (h : isDigitCh c = true) : (!isExpChar c) = true := by
  have h1 : c ≠ 'e' := digit_ne_of_isDigitCh h (by decide)
  have h2 : c ≠ 'E' := digit_ne_of_isDigitCh h (by decide)
  simp [isExpChar, h1, h2]

theorem all_notExp_of_digits {cs : List Char} (h : cs.all isDigitCh = true) :
    cs.all (fun c => !isExpChar c) = true := by
  rw [List.all_eq_true] at h ⊢
  intro x hx
  exact notExp_of_digit (h x hx)

theorem splitSign_digit {c : Char} (h : isDigitCh c = true) (cs : List Char) :
    splitSign (c :: cs) = (false, c :: cs) := by
  have h1 : c ≠ '-' := digit_ne_of_isDigitCh h (by decide)
  have h2 : c ≠ '+' := digit_ne_of_isDigitCh h (by decide)
  simp [splitSign, h1, h2]

theorem parseFloatChars_digits {cs : List Char} (h : cs.all isDigitCh = true) (hne : cs ≠ []) :
    parseFloatChars cs = some ⟨(digitsToNat cs : Int), 0⟩ := by
  obtain ⟨c, cs', rfl⟩ := List.exists_cons_of_ne_nil hne
  have hc : isDigitCh c = true := by
    simp only [List.all_cons, Bool.and_eq_true] at h
    exact h.1
  have hne2 := all_notExp_of_digits h
  rw [parseFloatChars, splitSign_digit hc]
  simp only [takeWhile_all hne2, dropWhile_all hne2, parseMantissa_digits h hne]
  simp [mkDecNum]

theorem all_notExp_append_point {a f : List Char} (ha : a.all isDigitCh = true)
    (hf : f.all isDigitCh = true) :
    (a ++ '.' :: f).all (fun x => !isExpChar x) = true := by
  rw [List.all_eq_true]
  intro x hx
  rw [List.mem_append, List.mem_cons] at hx
  rcases hx with hx | hx | hx
  · exact notExp_of_digit (List.all_eq_true.mp ha x hx)
  · subst hx; decide
  · exact notExp_of_digit (List.all_eq_true.mp hf x hx)

theorem parseFloatChars_neg_digits {cs : List Char} (h : cs.all isDigitCh = true)
    (hne : cs ≠ []) : parseFloatChars ('-' :: cs) = some ⟨-(digitsToNat cs : Int), 0⟩ := by
  have hs : splitSign ('-' :: cs) = (true, cs) := rfl
  have hne2 := all_notExp_of_digits h
  rw [parseFloatChars, hs]
  simp only [takeWhile_all hne2, dropWhile_all hne2, parseMantissa_digits h hne]
  simp [mkDecNum]

theorem parse_int_intStr (n : Int) : parse_int (intStr n) = some n := by
  rcases le_or_lt 0 n with hn | hn
  · rw [intStr, if_neg (not_lt.mpr hn), parse_int,
      if_neg (mkStr_ne_empty (natToChars_ne_nil n.natAbs))]
    show ((parseFloatChars (natToChars n.natAbs)).map truncDec) = some n
    rw [parseFloatChars_digits (all_isDigitCh_natToChars _) (natToChars_ne_nil _)]
    simp [truncDec, digitsToNat_natToChars, Int.natAbs_of_nonneg hn]
  · rw [intStr, if_pos hn, parse_int, if_neg (mkStr_ne_empty (by simp))]
    show ((parseFloatChars ('-' :: natToChars n.natAbs)).map truncDec) = some n
    rw [parseFloatChars_neg_digits (all_isDigitCh_natToChars _) (natToChars_ne_nil _)]
    rw [digitsToNat_natToChars]
    simp only [Option.map_map, Option.map_some', truncDec, pow_zero, Int.tdiv_one,
      Option.some.injEq]
    omega

theorem parseFloatChars_point {a f : List Char} (ha : a.all isDigitCh = true) (hnea : a ≠ [])
    (hf : f.all isDigitCh = true) :
    parseFloatChars (a ++ '.' :: f) =
      some ⟨(digitsToNat a * 10 ^ f.length + digitsToNat f : Nat), f.length⟩ := by
  obtain ⟨c, cs', rfl⟩ := List.exists_cons_of_ne_nil hnea
  have hc : isDigitCh c = true := by
    simp only [List.all_cons, Bool.and_eq_true] at ha
    exact ha.1
  have hallw := all_notExp_append_point ha hf
  rw [List.cons_append, parseFloatChars, splitSign_digit hc]
  rw [← List.cons_append]
  simp only [takeWhile_all hallw, dropWhile_all hallw, parseMantissa_point ha hnea hf]
  simp [mkDecNum]

theorem parseFloatChars_neg_point {a f : List Char} (ha : a.all isDigitCh = true)
    (hnea : a ≠ []) (hf : f.all isDigitCh = true) :
    parseFloatChars ('-' :: (a ++ '.' :: f)) =
      some ⟨-((digitsToNat a * 10 ^ f.length + digitsToNat f : Nat) : Int), f.length⟩ := by
  have hallw := all_notExp_append_point ha hf
  have hs : splitSign ('-' :: (a ++ '.' :: f)) = (true, a ++ '.' :: f) := rfl
  rw [parseFloatChars, hs]
  simp only [takeWhile_all hallw, dropWhile_all hallw, parseMantissa_point ha hnea hf]
  simp [mkDecNum]

theorem parse_float_floatStr (d : DecNum) :
    ∃ d2, parse_float (floatStr d) = some d2 ∧ d2.toQ = d.toQ := by
  have hz : (['0'] : List Char).all isDigitCh = true := by decide
  by_cases hexp : d.exp = 0
  · have hbody : floatStr d =
        String.mk ((if d.num < 0 then ['-'] else []) ++
          (natToChars d.num.natAbs ++ '.' :: ['0'])) := by
      simp [floatStr, hexp, Nat.div_one, List.append_assoc]
    by_cases hn : d.num < 0
    · rw [hbody, if_pos hn]
      refine ⟨⟨-((d.num.natAbs * 10 : Nat) : Int), 1⟩, ?_, ?_⟩
      · rw [parse_float, if_neg (mkStr_ne_empty (by simp))]
        show parseFloatChars ('-' :: (natToChars d.num.natAbs ++ '.' :: ['0'])) = _
        rw [parseFloatChars_neg_point (all_isDigitCh_natToChars _) (natToChars_ne_nil _) hz]
        rw [digitsToNat_natToChars]
        simp [show digitsToNat ['0'] = 0 from rfl, pow_one]
      · simp only [DecNum.toQ, hexp, pow_zero, pow_one]
        push_cast
        rw [abs_of_neg (show (d.num : ℚ) < 0 from by exact_mod_cast hn)]
        ring
    · rw [hbody, if_neg hn]
      rw [List.nil_append]
      refine ⟨⟨((d.num.natAbs * 10 : Nat) : Int), 1⟩, ?_, ?_⟩
      · rw [parse_float, if_neg (mkStr_ne_empty (by simp))]
        show parseFloatChars (natToChars d.num.natAbs ++ '.' :: ['0']) = _
        rw [parseFloatChars_point (all_isDigitCh_natToChars _) (natToChars_ne_nil _) hz]
        rw [digitsToNat_natToChars]
        simp [show digitsToNat ['0'] = 0 from rfl, pow_one]
      · simp only [DecNum.toQ, hexp, pow_zero, pow_one]
        push_cast
        rw [abs_of_nonneg (show (0 : ℚ) ≤ (d.num : ℚ) from by exact_mod_cast not_lt.mp hn)]
        ring
  · have hlt : d.num.natAbs % 10 ^ d.exp < 10 ^ d.exp :=
      Nat.mod_lt _ (Nat.pos_pow_of_pos _ (by norm_num))
    have hdm : d.num.natAbs / 10 ^ d.exp * 10 ^ d.exp + d.num.natAbs % 10 ^ d.exp =
        d.num.natAbs := by
      rw [Nat.mul_comm]
      exact Nat.div_add_mod _ _
    have hbody : floatStr d =
        String.mk ((if d.num < 0 then ['-'] else []) ++
          (natToChars (d.num.natAbs / 10 ^ d.exp) ++ '.' ::
            fixedDigits d.exp (d.num.natAbs % 10 ^ d.exp))) := by
      simp [floatStr, hexp, List.append_assoc]
    have hflen := length_fixedDigits d.exp (d.num.natAbs % 10 ^ d.exp)
    have hfall := all_isDigitCh_fixedDigits d.exp (d.num.natAbs % 10 ^ d.exp)
    have hfval := digitsToNat_fixedDigits hlt
    by_cases hn : d.num < 0
    · rw [hbody, if_pos hn]
      refine ⟨⟨-((d.num.natAbs : Nat) : Int), d.exp⟩, ?_, ?_⟩
      · rw [parse_float, if_neg (mkStr_ne_empty (by simp))]
        show parseFloatChars ('-' :: (natToChars (d.num.natAbs / 10 ^ d.exp) ++ '.' ::
          fixedDigits d.exp (d.num.natAbs % 10 ^ d.exp))) = _
        rw [parseFloatChars_neg_point (all_isDigitCh_natToChars _) (natToChars_ne_nil _) hfall]
        rw [digitsToNat_natToChars, hflen, hfval, hdm]
      · have h0 : -((d.num.natAbs : Nat) : Int) = d.num := by omega
        simp only [DecNum.toQ]
        congr 1
        exact_mod_cast congrArg (fun z : Int => (z : ℚ)) h0
    · rw [hbody, if_neg hn]
      rw [List.nil_append]
      refine ⟨⟨((d.num.natAbs : Nat) : Int), d.exp⟩, ?_, ?_⟩
      · rw [parse_float, if_neg (mkStr_ne_empty (by simp))]
        show parseFloatChars (natToChars (d.num.natAbs / 10 ^ d.exp) ++ '.' ::
          fixedDigits d.exp (d.num.natAbs % 10 ^ d.exp)) = _
        rw [parseFloatChars_point (all_isDigitCh_natToChars _) (natToChars_ne_nil _) hfall]
        rw [digitsToNat_natToChars, hflen, hfval, hdm]
      · have h0 : ((d.num.natAbs : Nat) : Int) = d.num := by omega
        simp only [DecNum.toQ]
        congr 1
        exact_mod_cast congrArg (fun z : Int => (z : ℚ)) h0

theorem daysInMonth_le (y m : Nat) : daysInMonth y m ≤ 31 := by
  rw [daysInMonth]
  split
  · split <;> norm_num
  · split <;> norm_num

theorem parse_date_dateStr {d : SDate} (h : validDate d) : parse_date (dateStr d) = some d := by
  rcases d with ⟨y, m, dd⟩
  obtain ⟨h1, h2, h3, h4, h5, h6⟩ := h
  simp only at h1 h2 h3 h4 h5 h6
  have hY := all_isDigitCh_fixedDigits 4 y
  have hM := all_isDigitCh_fixedDigits 2 m
  have hD := all_isDigitCh_fixedDigits 2 dd
  have hdash : isDigitCh '-' = false := by decide
  have hYne : ∀ c ∈ fixedDigits 4 y, c ≠ '-' := fun c hc =>
    digit_ne_of_isDigitCh (List.all_eq_true.mp hY c hc) hdash
  have hMne : ∀ c ∈ fixedDigits 2 m, c ≠ '-' := fun c hc =>
    digit_ne_of_isDigitCh (List.all_eq_true.mp hM c hc) hdash
  have hDne : ∀ c ∈ fixedDigits 2 dd, c ≠ '-' := fun c hc =>
    digit_ne_of_isDigitCh (List.all_eq_true.mp hD c hc) hdash
  have hy4 : parseY4 (fixedDigits 4 y) = some y := by
    rw [parseY4, if_pos ⟨length_fixedDigits 4 y, hY⟩,
      digitsToNat_fixedDigits (show y < 10 ^ 4 by norm_num; omega)]
  have hm2 : parseNN 12 (fixedDigits 2 m) = some m := by
    rw [parseNN, if_pos ⟨Or.inr (length_fixedDigits 2 m), hM⟩,
      digitsToNat_fixedDigits (show m < 10 ^ 2 by norm_num; omega), if_pos ⟨h3, h4⟩]
  have hd31 : dd ≤ 31 := le_trans h6 (daysInMonth_le y m)
  have hd2 : parseNN 31 (fixedDigits 2 dd) = some dd := by
    rw [parseNN, if_pos ⟨Or.inr (length_fixedDigits 2 dd), hD⟩,
      digitsToNat_fixedDigits (show dd < 10 ^ 2 by norm_num; omega), if_pos ⟨h5, hd31⟩]
  rw [dateStr, parse_date, if_neg (mkStr_ne_empty (by simp))]
  show parseDateChars (fixedDigits 4 y ++ '-' :: (fixedDigits 2 m ++ '-' :: fixedDigits 2 dd)) =
    some ⟨y, m, dd⟩
  rw [parseDateChars, splitOnChar_append hYne, splitOnChar_append hMne, splitOnChar_no_sep hDne]
  show mkDate (fixedDigits 4 y) (fixedDigits 2 m) (fixedDigits 2 dd) = some ⟨y, m, dd⟩
  rw [mkDate, hy4, hm2, hd2]
  exact if_pos ⟨h1, h6⟩

theorem charVal_lt_ten {c : Char} (h : isDigitCh c = true) : charVal c < 10 := by
  simp only [isDigitCh, decide_eq_true_eq] at h
  simp only [charVal]
  omega

theorem foldl_digits_lt (cs : List Char) : ∀ acc, cs.all isDigitCh = true →
    List.foldl (fun a c => 10 * a + charVal c) acc cs < (acc + 1) * 10 ^ cs.length := by
  induction cs with
  | nil => intro acc _; simp only [List.foldl_nil, List.length_nil, pow_zero, Nat.mul_one]; omega
  | cons c cs ih =>
    intro acc h
    simp only [List.all_cons, Bool.and_eq_true] at h
    have hv := charVal_lt_ten h.1
    have hrec := ih (10 * acc + charVal c) h.2
    simp only [List.foldl_cons, List.length_cons]
    refine lt_of_lt_of_le hrec ?_
    have hle : 10 * acc + charVal c + 1 ≤ (acc + 1) * 10 := by omega
    calc (10 * acc + charVal c + 1) * 10 ^ cs.length
        ≤ (acc + 1) * 10 * 10 ^ cs.length := Nat.mul_le_mul_right _ hle
      _ = (acc + 1) * 10 ^ (cs.length + 1) := by ring

theorem digitsToNat_lt {cs : List Char} (h : cs.all isDigitCh = true) :
    digitsToNat cs < 10 ^ cs.length := by
  have := foldl_digits_lt cs 0 h
  simpa [digitsToNat] using this

theorem parseY4_bound {cs : List Char} {y : Nat} (h : parseY4 cs = some y) : y ≤ 9999 := by
  rw [parseY4] at h
  split at h
  · rename_i hc
    injection h with h
    subst h
    have := digitsToNat_lt hc.2
    rw [hc.1] at this
    omega
  · cases h

theorem parseNN_bound {hi : Nat} {cs : List Char} {v : Nat} (h : parseNN hi cs = some v) :
    1 ≤ v ∧ v ≤ hi := by
  rw [parseNN] at h
  split at h
  · split at h
    · rename_i hv
      injection h with h
      subst h
      exact hv
    · cases h
  · cases h

theorem mkDate_valid {ys ms ds : List Char} {d : SDate} (h : mkDate ys ms ds = some d) :
    validDate d := by
  rw [mkDate] at h
  cases hy : parseY4 ys with
  | none => simp only [hy] at h; cases h
  | some y =>
    cases hm : parseNN 12 ms with
    | none => simp only [hy, hm] at h; cases h
    | some m =>
      cases hd : parseNN 31 ds with
      | none => simp only [hy, hm, hd] at h; cases h
      | some dy =>
        simp only [hy, hm, hd] at h
        split at h
        · rename_i hc
          injection h with h
          subst h
          obtain ⟨hm1, hm2⟩ := parseNN_bound hm
          obtain ⟨hd1, _⟩ := parseNN_bound hd
          exact ⟨hc.1, parseY4_bound hy, hm1, hm2, hd1, hc.2⟩
        · cases h

theorem parseDateChars_valid {cs : List Char} {d : SDate} (h : parseDateChars cs = some d) :
    validDate d := by
  rw [parseDateChars] at h
  split at h
  · exact mkDate_valid h
  · split at h
    · rename_i a b c _
      cases h1 : mkDate c a b with
      | some x =>
        rw [h1] at h
        simp only [Option.orElse] at h
        injection h with h
        subst h
        exact mkDate_valid h1
      | none =>
        rw [h1] at h
        simp only [Option.orElse] at h
        cases h2 : mkDate c b a with
        | some x =>
          rw [h2] at h
          simp only [Option.orElse] at h
          injection h with h
          subst h
          exact mkDate_valid h2
        | none =>
          rw [h2] at h
          simp only [Option.orElse] at h
          exact mkDate_valid h
    · cases h

theorem parse_date_valid {s : String} {d : SDate} (h : parse_date s = some d) : validDate d := by
  rw [parse_date] at h
  split at h
  · cases h
  · exact parseDateChars_valid h

theorem truncDec_floor {d : DecNum} (h : 0 ≤ d.toQ) : truncDec d = ⌊d.toQ⌋ := by
  have hp : (0 : Int) < (10 : Int) ^ d.exp := pow_pos (by norm_num) _
  have hnum : 0 ≤ d.num := by
    by_contra hneg
    push_neg at hneg
    have hq : d.toQ < 0 := by
      rw [DecNum.toQ]
      apply div_neg_of_neg_of_pos
      · exact_mod_cast hneg
      · positivity
    linarith
  rw [truncDec, Int.tdiv_eq_ediv hnum (le_of_lt hp), DecNum.toQ]
  have hcast : ((10 : ℚ) ^ d.exp) = ((10 ^ d.exp : Nat) : ℚ) := by push_cast; ring
  rw [hcast, Rat.floor_intCast_div_natCast]
  norm_cast

theorem truncDec_ceil {d : DecNum} (h : d.toQ < 0) : truncDec d = ⌈d.toQ⌉ := by
  have hnn : 0 ≤ (⟨-d.num, d.exp⟩ : DecNum).toQ := by
    have hq : (⟨-d.num, d.exp⟩ : DecNum).toQ = -d.toQ := by
      simp only [DecNum.toQ]
      push_cast
      ring
    rw [hq]
    linarith
  have h2 := @truncDec_floor ⟨-d.num, d.exp⟩ hnn
  have hq : (⟨-d.num, d.exp⟩ : DecNum).toQ = -d.toQ := by
    simp only [DecNum.toQ]
    push_cast
    ring
  rw [hq] at h2
  have h3 : truncDec (⟨-d.num, d.exp⟩ : DecNum) = -(truncDec d) := by
    simp only [truncDec, Int.neg_tdiv]
  rw [h3] at h2
  have h4 : ⌈d.toQ⌉ = -⌊-d.toQ⌋ := by
    rw [show d.toQ = -(-d.toQ) by ring, Int.ceil_neg]
    simp
  omega

theorem zip_drop {α β : Type} : ∀ (n : Nat) (ks : List α) (vs : List β),
    (ks.zip vs).drop n = (ks.drop n).zip (vs.drop n) := by
  intro n
  induction n with
  | zero => intro ks vs; rfl
  | succ n ih =>
    intro ks vs
    cases ks with
    | nil => simp
    | cons k ks =>
      cases vs with
      | nil => simp
      | cons v vs => simp only [List.zip_cons_cons, List.drop_succ_cons, ih]

theorem zip_replicate_right {α β : Type} (x : β) : ∀ (ks : List α) (k : Nat),
    ks.length ≤ k → ks.zip (List.replicate k x) = ks.map (fun a => (a, x)) := by
  intro ks
  induction ks with
  | nil => intro k _; simp
  | cons a as ih =>
    intro k hk
    cases k with
    | zero => simp at hk
    | succ k =>
      rw [List.replicate_succ, List.zip_cons_cons, List.map_cons,
        ih k (by simpa using hk)]

theorem mergeRecipe_batchID (existing cand : Recipe) :
    (mergeRecipe existing cand).batchID = existing.batchID := rfl

theorem updateFirstRecipe_keys (k : PyVal) (cand : Recipe) : ∀ (store : List Recipe),
    (updateFirstRecipe store k cand).map (fun rec => rec.batchID) =
      store.map (fun rec => rec.batchID) := by
  intro store
  induction store with
  | nil => rfl
  | cons x xs ih =>
    rw [updateFirstRecipe]
    by_cases hx : x.batchID = k
    · rw [if_pos hx]
      simp [mergeRecipe_batchID]
    · rw [if_neg hx]
      simp [ih]

theorem recipeStep_keeps_keys {k : PyVal} {store : List Recipe} (r : RowDict)
    (h : k ∈ store.map fun rec => rec.batchID) :
    k ∈ (recipeStep store r).map fun rec => rec.batchID := by
  rw [recipeStep]
  cases hf : storeFindRecipe store (buildRecipe r).batchID with
  | some x => rw [updateFirstRecipe_keys]; exact h
  | none => simp only [List.map_append]; exact List.mem_append_left _ h

theorem recipeStep_adds_key {store : List Recipe} {r : RowDict}
    (h : (buildRecipe r).batchID ≠ .pyNone) :
    (buildRecipe r).batchID ∈ (recipeStep store r).map fun rec => rec.batchID := by
  rw [recipeStep]
  cases hf : storeFindRecipe store (buildRecipe r).batchID with
  | some x =>
    rw [updateFirstRecipe_keys]
    rw [storeFindRecipe, if_neg h] at hf
    have hx := List.find?_some hf
    have hmem := List.mem_of_find?_eq_some hf
    rw [decide_eq_true_eq] at hx
    rw [List.mem_map]
    exact ⟨x, hmem, hx⟩
  | none =>
    simp only [List.map_append]
    apply List.mem_append_right
    simp

theorem foldl_recipeStep_keeps_keys {k : PyVal} : ∀ (rs : List RowDict) (store : List Recipe),
    k ∈ (store.map fun rec => rec.batchID) →
    k ∈ ((rs.foldl recipeStep store).map fun rec => rec.batchID) := by
  intro rs
  induction rs with
  | nil => intro store h; exact h
  | cons r rs ih =>
    intro store h
    rw [List.foldl_cons]
    exact ih _ (recipeStep_keeps_keys r h)

theorem foldl_recipeStep_has_key {r : RowDict} (hk : (buildRecipe r).batchID ≠ .pyNone) :
    ∀ (rs : List RowDict) (store : List Recipe), r ∈ rs →
    (buildRecipe r).batchID ∈ ((rs.foldl recipeStep store).map fun rec => rec.batchID) := by
  intro rs
  induction rs with
  | nil => intro store h; cases h
  | cons r0 rs ih =>
    intro store h
    rw [List.foldl_cons]
    rcases List.mem_cons.mp h with heq | hmem
    · subst heq
      exact foldl_recipeStep_keeps_keys rs _ (recipeStep_adds_key hk)
    · exact ih _ hmem

theorem mergeField_none (old : PyVal) : mergeField .pyNone old = old := rfl

theorem mergeField_not_none {cand : PyVal} (old : PyVal) (h : cand ≠ .pyNone) :
    mergeField cand old = cand := if_neg h

/-- C1 counterexample, in two parts.  First, the claim's own example never
happens: pulling an Ingredients row with a blank description cell and a
non-empty source cell over a store holding a matching record changes
nothing, because the pull raises at the candidate's missing ID attribute
and rolls back - source is not updated.  Second, in the recipes pull, whose
merge loop does execute, a blank cell of the raw string column style
overwrites a stored non-null style with the empty string instead of leaving
it unchanged. -/
theorem C1_counterexample :
    sync_ingredients_from_sheet
      [["ID", "ingredient_type", "acc_date", "source", "description"],
       ["1", "rice", "", "newsrc", ""]]
      [{ ingredientID := .pyStr "rice1", ingredient_type := .pyStr "rice", acc_date := .pyNone,
         source := .pyStr "old", description := .pyStr "aged 3mo" }] =
      ([{ ingredientID := .pyStr "rice1", ingredient_type := .pyStr "rice", acc_date := .pyNone,
          source := .pyStr "old", description := .pyStr "aged 3mo" }], false) ∧
    (mergeRecipe (buildRecipe [("batchID", "B1"), ("style", "pure")])
      (buildRecipe [("batchID", "B1"), ("style", "")])).style = PyVal.pyStr "" ∧
    decide ((mergeRecipe (buildRecipe [("batchID", "B1"), ("style", "pure")])
      (buildRecipe [("batchID", "B1"), ("style", "")])).style = PyVal.pyStr "pure") = false := by
  decide

/-- C1 amended: the merge loop is reachable only in the starters, recipes
and publish-notes pulls; there a coerced candidate value of None leaves the
stored field unchanged and a non-None value overwrites it, and a blank cell
coerces to None only for date, float and int fields - a raw string field
such as style receives the blank cell as the non-None empty string, which
overwrites.  The ingredients pull itself never reaches its merge loop: on
any data row it raises at the missing ID attribute and rolls the sheet
back, leaving the store unchanged, so the description and source example of
the claim updates neither field. -/
theorem C1_merge_amended (ex : Recipe) (r : RowDict) :
    (mergeRecipe ex (buildRecipe r)).batchID = ex.batchID ∧
    ((buildRecipe r).start_date = PyVal.pyNone →
      (mergeRecipe ex (buildRecipe r)).start_date = ex.start_date) ∧
    ((buildRecipe r).start_date ≠ PyVal.pyNone →
      (mergeRecipe ex (buildRecipe r)).start_date = (buildRecipe r).start_date) ∧
    ((buildRecipe r).style = PyVal.pyNone →
      (mergeRecipe ex (buildRecipe r)).style = ex.style) ∧
    ((buildRecipe r).style ≠ PyVal.pyNone →
      (mergeRecipe ex (buildRecipe r)).style = (buildRecipe r).style) ∧
    ((buildRecipe r).total_kake_g = PyVal.pyNone →
      (mergeRecipe ex (buildRecipe r)).total_kake_g = ex.total_kake_g) ∧
    ((buildRecipe r).total_kake_g ≠ PyVal.pyNone →
      (mergeRecipe ex (buildRecipe r)).total_kake_g = (buildRecipe r).total_kake_g) ∧
    (rowLookup r "start_date" = some "" →
      (mergeRecipe ex (buildRecipe r)).start_date = ex.start_date) ∧
    (rowLookup r "style" = some "" →
      (mergeRecipe ex (buildRecipe r)).style = PyVal.pyStr "") ∧
    (∀ (values : List (List String)) (store : List Ingredient),
      get_sheet_data values ≠ [] →
      sync_ingredients_from_sheet values store = (store, false)) := by
  refine ⟨rfl, ?_, ?_, ?_, ?_, ?_, ?_, ?_, ?_, ?_⟩
  · intro h; simp only [mergeRecipe, h, mergeField_none]
  · intro h; simp only [mergeRecipe, mergeField_not_none _ h]
  · intro h; simp only [mergeRecipe, h, mergeField_none]
  · intro h; simp only [mergeRecipe, mergeField_not_none _ h]
  · intro h; simp only [mergeRecipe, h, mergeField_none]
  · intro h; simp only [mergeRecipe, mergeField_not_none _ h]
  · intro h
    have hb : (buildRecipe r).start_date = PyVal.pyNone := by
      simp only [buildRecipe, h, pyParseDate]
      rfl
    simp only [mergeRecipe, hb, mergeField_none]
  · intro h
    have hb : (buildRecipe r).style = PyVal.pyStr "" := by
      simp only [buildRecipe, h, pyGetStr]
    simp only [mergeRecipe, hb]
    rfl
  · intro values store h
    cases hv : get_sheet_data values with
    | nil => exact absurd hv h
    | cons a as => simp only [sync_ingredients_from_sheet, hv]

/-- C1 amended witness at a concrete stored recipe and a concrete row with
blank start_date and style cells, and at a concrete non-empty Ingredients
sheet. -/
theorem C1_merge_amended_witness :
    (mergeRecipe (buildRecipe [("batchID", "B1"), ("style", "pure")])
      (buildRecipe [("batchID", "B1"), ("start_date", ""), ("style", "")])).start_date =
      (buildRecipe [("batchID", "B1"), ("style", "pure")]).start_date ∧
    (mergeRecipe (buildRecipe [("batchID", "B1"), ("style", "pure")])
      (buildRecipe [("batchID", "B1"), ("start_date", ""), ("style", "")])).style =
      PyVal.pyStr "" ∧
    sync_ingredients_from_sheet [["ID"], ["1"]] [] = ([], false) :=
  ⟨(C1_merge_amended (buildRecipe [("batchID", "B1"), ("style", "pure")])
      [("batchID", "B1"), ("start_date", ""), ("style", "")]).2.2.2.2.2.2.2.1 (by decide),
   (C1_merge_amended (buildRecipe [("batchID", "B1"), ("style", "pure")])
      [("batchID", "B1"), ("start_date", ""), ("style", "")]).2.2.2.2.2.2.2.2.1 (by decide),
   (C1_merge_amended (buildRecipe [("batchID", "B1"), ("style", "pure")])
      [("batchID", "B1"), ("start_date", ""), ("style", "")]).2.2.2.2.2.2.2.2.2
      [["ID"], ["1"]] [] (by decide)⟩

/-- C2 failing input: the local store holds starter s5 and the remote
Starters sheet already holds the row for s5, the state reached right after
a successful push; a second push still appends one duplicate row, because
the remote key set integer-coerces the StarterBatch cell s5 to None while
the local key is the string s5.  Re-running push is not a no-op. -/
theorem C2_push_not_idempotent :
    sync_starters_to_sheet
      [{ StarterBatch := .pyStr "s5", Date := .pyDate ⟨2024, 3, 1⟩, BatchID := .pyStr "B010",
         Amt_Kake := .pyFloat ⟨250, 0⟩, Amt_Koji := .pyFloat ⟨250, 0⟩, Amt_water := .pyNone,
         water_type := .pyNone, Kake := .pyNone, Koji := .pyNone, yeast := .pyNone,
         lactic_acid := .pyNone, MgSO4 := .pyNone, KCl := .pyNone, temp_C := .pyNone }]
      [["StarterBatch", "Date", "BatchID", "Amt_Kake", "Amt_Koji"],
       ["s5", "2024-03-01", "B010", "250", "250"]] =
    PushEffect.updateAt 3
      [["s5", "2024-03-01", "B010", "250.0", "250.0", "", "", "", "", "", "", "", "", ""]] ∧
    ([["s5", "2024-03-01", "B010", "250.0", "250.0", "", "", "", "", "", "", "", "", ""]] :
      List (List String)).length = 1 := by
  decide

/-- C4 counterexample: a Recipe sheet with five data rows where the third
carries the non-numeric kake cell abc commits all five rows, the third one
with kake coerced to None; no row is skipped and nothing is reported as a
skipped-row count, so the claimed skip-that-row behaviour does not occur. -/
theorem C4_counterexample :
    (sync_recipes_from_sheet
      [["batchID", "kake"], ["B1", "1"], ["B2", "2"], ["B3", "abc"], ["B4", "4"], ["B5", "5"]]
      []).length = 5 ∧
    ((sync_recipes_from_sheet
      [["batchID", "kake"], ["B1", "1"], ["B2", "2"], ["B3", "abc"], ["B4", "4"], ["B5", "5"]]
      []).filter fun r => decide (r.batchID = .pyStr "B3")).map (fun r => r.kake) =
      [PyVal.pyNone] := by
  decide

/-- C4 amended: a row whose numeric cell fails to coerce is not skipped;
the coercion helpers return None and the row is still committed, so every
decoded row with a non-None key leaves a committed record with that key,
and the concrete bad row B3 builds a candidate with kake None. -/
theorem C4_rows_amended :
    (∀ (values : List (List String)) (store : List Recipe) (r : RowDict),
      r ∈ get_sheet_data values → (buildRecipe r).batchID ≠ PyVal.pyNone →
      ∃ rcp, rcp ∈ sync_recipes_from_sheet values store ∧
        rcp.batchID = (buildRecipe r).batchID) ∧
    (buildRecipe [("batchID", "B3"), ("kake", "abc")]).kake = PyVal.pyNone ∧
    (buildRecipe [("batchID", "B3"), ("kake", "abc")]).batchID = PyVal.pyStr "B3" := by
  refine ⟨?_, by decide, by decide⟩
  intro values store r hmem hne
  have h := foldl_recipeStep_has_key hne (get_sheet_data values) store hmem
  rw [List.mem_map] at h
  obtain ⟨rcp, hr, he⟩ := h
  exact ⟨rcp, hr, he⟩

/-- C4 amended witness: in the five-row sheet with the bad third row, a
record keyed B3 is committed. -/
theorem C4_rows_amended_witness :
    ∃ rcp, rcp ∈ sync_recipes_from_sheet
      [["batchID", "kake"], ["B1", "1"], ["B2", "2"], ["B3", "abc"], ["B4", "4"], ["B5", "5"]]
      [] ∧ rcp.batchID = (buildRecipe [("batchID", "B3"), ("kake", "abc")]).batchID :=
  C4_rows_amended.1
    [["batchID", "kake"], ["B1", "1"], ["B2", "2"], ["B3", "abc"], ["B4", "4"], ["B5", "5"]]
    [] [("batchID", "B3"), ("kake", "abc")] (by decide) (by decide)

theorem get_sheet_data_header_only (headers : List String) : get_sheet_data [headers] = [] := rfl

theorem get_sheet_data_cons_length (headers : List String) (rows : List (List String)) :
    (get_sheet_data (headers :: rows)).length = rows.length := by
  simp [get_sheet_data]

theorem get_sheet_data_cons_ne_nil {headers : List String} {rows : List (List String)}
    (h : rows ≠ []) : get_sheet_data (headers :: rows) ≠ [] := by
  simp only [get_sheet_data]
  intro he
  exact h (List.map_eq_nil_iff.mp he)

theorem sync_st_not_update_of_empty (db : List Starter) (values : List (List String))
    (h : get_sheet_data values = []) :
    (sync_starters_to_sheet db values).isUpdateAt = false := by
  simp only [sync_starters_to_sheet, h]
  split
  · rfl
  · rfl

theorem sync_st_first_row {db : List Starter} {values : List (List String)} {k : Nat}
    (h : get_sheet_data values ≠ [])
    (hk : (sync_starters_to_sheet db values).firstWrittenRow = some k) :
    k = (get_sheet_data values).length + 2 := by
  simp only [sync_starters_to_sheet] at hk
  split at hk
  · simp [PushEffect.firstWrittenRow] at hk
  · split at hk
    · rename_i hempty
      cases he : get_sheet_data values with
      | nil => exact absurd he h
      | cons a as => rw [he] at hempty; simp at hempty
    · simp only [PushEffect.firstWrittenRow, Option.some.injEq] at hk
      omega

theorem sync_ing_never_writes (db : List Ingredient) (values : List (List String)) :
    (sync_ingredients_to_sheet db values).firstWrittenRow = none := by
  rw [sync_ingredients_to_sheet]
  split
  · rfl
  · rfl

theorem starter_new_filter_of_no_records (sdb : List Starter) :
    (sdb.filter fun st =>
      st.StarterBatch.truthy && !(decide (st.StarterBatch ∈ ([] : List PyVal)))) =
    sdb.filter fun st => st.StarterBatch.truthy := by
  apply List.filter_congr
  intro a _
  simp

/-- C5 counterexample: pushing one new starter against a Starters sheet
whose only row is a header (occupied row 1) takes the write branch: it
writes from row 1 with a header row differing from the occupied one,
overwriting it, instead of appending after the last occupied row. -/
theorem C5_counterexample :
    sync_starters_to_sheet
      [{ StarterBatch := .pyStr "s5", Date := .pyDate ⟨2024, 3, 1⟩, BatchID := .pyStr "B010",
         Amt_Kake := .pyFloat ⟨250, 0⟩, Amt_Koji := .pyFloat ⟨250, 0⟩, Amt_water := .pyNone,
         water_type := .pyNone, Kake := .pyNone, Koji := .pyNone, yeast := .pyNone,
         lactic_acid := .pyNone, MgSO4 := .pyNone, KCl := .pyNone, temp_C := .pyNone }]
      [["StarterBatch", "x"]] =
    PushEffect.writeReplace starterSheetHeaders
      [["s5", "2024-03-01", "B010", "250.0", "250.0", "", "", "", "", "", "", "", "", ""]] ∧
    (sync_starters_to_sheet
      [{ StarterBatch := .pyStr "s5", Date := .pyDate ⟨2024, 3, 1⟩, BatchID := .pyStr "B010",
         Amt_Kake := .pyFloat ⟨250, 0⟩, Amt_Koji := .pyFloat ⟨250, 0⟩, Amt_water := .pyNone,
         water_type := .pyNone, Kake := .pyNone, Koji := .pyNone, yeast := .pyNone,
         lactic_acid := .pyNone, MgSO4 := .pyNone, KCl := .pyNone, temp_C := .pyNone }]
      [["StarterBatch", "x"]]).firstWrittenRow = some 1 ∧
    decide (starterSheetHeaders = ["StarterBatch", "x"]) = false := by
  decide

/-- C5 amended: in the starters push (and its textually parallel recipes
and publish-notes pushes), a sheet with at least one data row receives
writes only at rows strictly after the last occupied row - the first
written row is the data-row count plus two; when the decoded record list is
empty, which also covers a header-only sheet, the push takes the no-op or
write-headers branch, never the append branch, and the write branch
rewrites the sheet from row 1, overwriting an existing header-only row.
The ingredients push never writes any row at all: with an empty store there
is nothing new, and otherwise it raises at the missing ID attribute before
reaching a write. -/
theorem C5_push_amended :
    (∀ (db : List Starter) (headers : List String) (rows : List (List String)),
      rows ≠ [] →
      ∀ k, (sync_starters_to_sheet db (headers :: rows)).firstWrittenRow = some k →
        k = rows.length + 2 ∧ (headers :: rows).length < k) ∧
    (∀ (db : List Starter) (values : List (List String)),
      get_sheet_data values = [] →
      (sync_starters_to_sheet db values).isUpdateAt = false) ∧
    (∀ (db : List Ingredient) (values : List (List String)),
      (sync_ingredients_to_sheet db values).firstWrittenRow = none) := by
  refine ⟨?_, ?_, ?_⟩
  · intro db headers rows hne k hk
    have h1 := sync_st_first_row (get_sheet_data_cons_ne_nil hne) hk
    rw [get_sheet_data_cons_length] at h1
    constructor
    · exact h1
    · simp only [List.length_cons]
      omega
  · intro db values hv
    exact sync_st_not_update_of_empty db values hv
  · intro db values
    exact sync_ing_never_writes db values

/-- C5 amended witness: a one-data-row Starters sheet receives its first
pushed cell at row 3, and a header-only Starters sheet is pushed through a
non-append branch. -/
theorem C5_push_amended_witness :
    ((3 : Nat) = 1 + 2 ∧ ([["StarterBatch"], ["4"]] : List (List String)).length < 3) ∧
    (sync_starters_to_sheet
      [{ StarterBatch := .pyStr "s5", Date := .pyNone, BatchID := .pyNone,
         Amt_Kake := .pyNone, Amt_Koji := .pyNone, Amt_water := .pyNone,
         water_type := .pyNone, Kake := .pyNone, Koji := .pyNone, yeast := .pyNone,
         lactic_acid := .pyNone, MgSO4 := .pyNone, KCl := .pyNone, temp_C := .pyNone }]
      [["StarterBatch", "x"]]).isUpdateAt = false :=
  ⟨C5_push_amended.1
      [{ StarterBatch := .pyStr "s5", Date := .pyNone, BatchID := .pyNone,
         Amt_Kake := .pyNone, Amt_Koji := .pyNone, Amt_water := .pyNone,
         water_type := .pyNone, Kake := .pyNone, Koji := .pyNone, yeast := .pyNone,
         lactic_acid := .pyNone, MgSO4 := .pyNone, KCl := .pyNone, temp_C := .pyNone }]
      ["StarterBatch"] [["4"]] (by decide) 3 (by decide),
   C5_push_amended.2.1
      [{ StarterBatch := .pyStr "s5", Date := .pyNone, BatchID := .pyNone,
         Amt_Kake := .pyNone, Amt_Koji := .pyNone, Amt_water := .pyNone,
         water_type := .pyNone, Kake := .pyNone, Koji := .pyNone, yeast := .pyNone,
         lactic_acid := .pyNone, MgSO4 := .pyNone, KCl := .pyNone, temp_C := .pyNone }]
      [["StarterBatch", "x"]] (by decide)⟩

/-- C9 counterexample: on a header-only sheet the decoded record list is
the same empty list as for an empty sheet, but the ingredients push does
not take the write-headers-and-data branch there: with a record to push it
raises at the missing ID attribute before reaching any branch and nothing
is written. -/
theorem C9_counterexample :
    get_sheet_data [["ID", "x"]] = ([] : List RowDict) ∧
    get_sheet_data [["ID", "x"]] = get_sheet_data [] ∧
    sync_ingredients_to_sheet
      [{ ingredientID := .pyStr "rice1", ingredient_type := .pyStr "rice", acc_date := .pyNone,
         source := .pyNone, description := .pyNone }]
      [["ID", "x"]] = PushEffect.errored ∧
    (sync_ingredients_to_sheet
      [{ ingredientID := .pyStr "rice1", ingredient_type := .pyStr "rice", acc_date := .pyNone,
         source := .pyNone, description := .pyNone }]
      [["ID", "x"]]).isWriteReplace = false ∧
    (sync_ingredients_to_sheet
      [{ ingredientID := .pyStr "rice1", ingredient_type := .pyStr "rice", acc_date := .pyNone,
         source := .pyNone, description := .pyNone }]
      [["ID", "x"]]).isUpdateAt = false := by
  decide

/-- C9 amended: a sheet holding only a header row decodes to the same
empty record list as a sheet with no values, so no push can distinguish the
two - the ingredients push evaluates identically on both and never takes
the append branch, but it does nothing (empty store) or raises at the
missing ID attribute rather than writing; in the textually parallel
starters push, whose body executes, new records on a header-only sheet go
through the write-headers-and-data branch that rewrites the sheet from
row 1, never the append branch. -/
theorem C9_header_only_push (headers : List String) (db : List Ingredient)
    (sdb : List Starter) :
    get_sheet_data [headers] = [] ∧
    get_sheet_data [headers] = get_sheet_data [] ∧
    sync_ingredients_to_sheet db [headers] = sync_ingredients_to_sheet db [] ∧
    (sync_ingredients_to_sheet db [headers]).isUpdateAt = false ∧
    (db ≠ [] → sync_ingredients_to_sheet db [headers] = PushEffect.errored) ∧
    sync_starters_to_sheet sdb [headers] = sync_starters_to_sheet sdb [] ∧
    (sync_starters_to_sheet sdb [headers]).isUpdateAt = false ∧
    ((sdb.filter fun st => st.StarterBatch.truthy) ≠ [] →
      sync_starters_to_sheet sdb [headers] =
        PushEffect.writeReplace starterSheetHeaders
          (renderRows starterSheetHeaders
            ((sdb.filter fun st => st.StarterBatch.truthy).map starterPushRow))) := by
  refine ⟨rfl, rfl, rfl, ?_, ?_, rfl, ?_, ?_⟩
  · cases db
    · rfl
    · rfl
  · intro h
    cases db with
    | nil => exact absurd rfl h
    | cons a as => rfl
  · exact sync_st_not_update_of_empty sdb [headers] rfl
  · intro h
    simp only [sync_starters_to_sheet, get_sheet_data_header_only, List.filter_nil,
      List.map_nil, starter_new_filter_of_no_records]
    rw [if_neg]
    · rfl
    · simp only [List.isEmpty_eq_true]
      exact h

/-- C9 amended witness: a header-only sheet with one stored ingredient and
one truthy-keyed stored starter. -/
theorem C9_header_only_push_witness :
    sync_ingredients_to_sheet
      [{ ingredientID := .pyStr "rice1", ingredient_type := .pyStr "rice", acc_date := .pyNone,
         source := .pyNone, description := .pyNone }]
      [["StarterBatch", "x"]] = PushEffect.errored ∧
    sync_starters_to_sheet
      [{ StarterBatch := .pyStr "s5", Date := .pyNone, BatchID := .pyNone,
         Amt_Kake := .pyNone, Amt_Koji := .pyNone, Amt_water := .pyNone,
         water_type := .pyNone, Kake := .pyNone, Koji := .pyNone, yeast := .pyNone,
         lactic_acid := .pyNone, MgSO4 := .pyNone, KCl := .pyNone, temp_C := .pyNone }]
      [["StarterBatch", "x"]] =
      PushEffect.writeReplace starterSheetHeaders
        (renderRows starterSheetHeaders
          (([{ StarterBatch := .pyStr "s5", Date := .pyNone, BatchID := .pyNone,
               Amt_Kake := .pyNone, Amt_Koji := .pyNone, Amt_water := .pyNone,
               water_type := .pyNone, Kake := .pyNone, Koji := .pyNone, yeast := .pyNone,
               lactic_acid := .pyNone, MgSO4 := .pyNone, KCl := .pyNone,
               temp_C := .pyNone }].filter fun st => st.StarterBatch.truthy).map
            starterPushRow)) :=
  ⟨(C9_header_only_push ["StarterBatch", "x"]
      [{ ingredientID := .pyStr "rice1", ingredient_type := .pyStr "rice", acc_date := .pyNone,
         source := .pyNone, description := .pyNone }]
      [{ StarterBatch := .pyStr "s5", Date := .pyNone, BatchID := .pyNone,
         Amt_Kake := .pyNone, Amt_Koji := .pyNone, Amt_water := .pyNone,
         water_type := .pyNone, Kake := .pyNone, Koji := .pyNone, yeast := .pyNone,
         lactic_acid := .pyNone, MgSO4 := .pyNone, KCl := .pyNone,
         temp_C := .pyNone }]).2.2.2.2.1 (by decide),
   (C9_header_only_push ["StarterBatch", "x"]
      [{ ingredientID := .pyStr "rice1", ingredient_type := .pyStr "rice", acc_date := .pyNone,
         source := .pyNone, description := .pyNone }]
      [{ StarterBatch := .pyStr "s5", Date := .pyNone, BatchID := .pyNone,
         Amt_Kake := .pyNone, Amt_Koji := .pyNone, Amt_water := .pyNone,
         water_type := .pyNone, Kake := .pyNone, Koji := .pyNone, yeast := .pyNone,
         lactic_acid := .pyNone, MgSO4 := .pyNone, KCl := .pyNone,
         temp_C := .pyNone }]).2.2.2.2.2.2.2 (by decide)⟩

/-- C6 counterexample: a None value encodes to the empty cell, but for a
boolean column the empty cell coerces back to False, not to None: the
candidate built from a row with a blank clarified cell carries the value
False where the original record held None. -/
theorem C6_counterexample :
    format_value_for_sheet PyVal.pyNone = "" ∧
    (buildRecipe [("batchID", "B1"), ("clarified", "")]).clarified = PyVal.pyBool false := by
  decide

/-- C6 amended: encoding then decoding plus coercion is the identity for
calendar dates in the representable range, for floats up to value equality,
for integers and for booleans; an encoded None decodes back to None under
the date, float and int coercions, but under the boolean coercion an
encoded None comes back as False. -/
theorem C6_roundtrip_amended (d : SDate) (q : DecNum) (n : Int) (b : Bool)
    (hd : validDate d) :
    parse_date (format_value_for_sheet (.pyDate d)) = some d ∧
    (∃ q2, parse_float (format_value_for_sheet (.pyFloat q)) = some q2 ∧ q2.toQ = q.toQ) ∧
    parse_int (format_value_for_sheet (.pyInt n)) = some n ∧
    parse_bool (format_value_for_sheet (.pyBool b)) = b ∧
    parse_date (format_value_for_sheet .pyNone) = none ∧
    parse_float (format_value_for_sheet .pyNone) = none ∧
    parse_int (format_value_for_sheet .pyNone) = none ∧
    parse_bool (format_value_for_sheet .pyNone) = false := by
  refine ⟨parse_date_dateStr hd, parse_float_floatStr q, parse_int_intStr n, ?_, by decide⟩
  cases b <;> decide

/-- C6 amended witness at a concrete date, float, int and boolean. -/
theorem C6_roundtrip_amended_witness :
    parse_date (format_value_for_sheet (.pyDate ⟨2024, 3, 1⟩)) = some ⟨2024, 3, 1⟩ ∧
    parse_int (format_value_for_sheet (.pyInt (-7))) = some (-7) :=
  ⟨(C6_roundtrip_amended ⟨2024, 3, 1⟩ ⟨79, 1⟩ (-7) true (by decide)).1,
   (C6_roundtrip_amended ⟨2024, 3, 1⟩ ⟨79, 1⟩ (-7) true (by decide)).2.2.1⟩

/-- C7 counterexample: decoding the Recipe sheet with its full header row
and a one-cell data row never errors, but the missing trailing fields do
not all coerce to None: the boolean column pasteurized coerces to False and
the raw string column finishing_additions keeps the empty string. -/
theorem C7_counterexample :
    ((get_sheet_data [recipeSheetHeaders, ["B9"]]).map fun r =>
      ((buildRecipe r).pasteurized, (buildRecipe r).finishing_additions)) =
    [(PyVal.pyBool false, PyVal.pyStr "")] := by
  decide

/-- C7 amended: a data row shorter than the header row is zero-padded with
empty cells before zipping, so decoding is total and the entries beyond the
row length are exactly the trimmed trailing headers paired with the empty
string; the empty string then coerces to None under the date, float and int
helpers, to False under the boolean helper, and stays the empty string for
raw string fields. -/
theorem C7_ragged_amended (headers row : List String) (_h : row.length ≤ headers.length) :
    get_sheet_data [headers, row] =
      [(headers.map stripStr).zip (row ++ List.replicate (headers.length - row.length) "")] ∧
    ((headers.map stripStr).zip
        (row ++ List.replicate (headers.length - row.length) "")).drop row.length =
      ((headers.map stripStr).drop row.length).map (fun k => (k, "")) ∧
    parse_date "" = none ∧ parse_float "" = none ∧ parse_int "" = none ∧
    parse_bool "" = false := by
  refine ⟨?_, ?_, by decide⟩
  · simp [get_sheet_data]
  · rw [zip_drop, List.drop_left' (by rfl : row.length = row.length)]
    apply zip_replicate_right
    simp

/-- C7 amended witness: five headers against a two-cell row. -/
theorem C7_ragged_amended_witness :
    get_sheet_data [["StarterBatch", "Date", "BatchID", "Amt_Kake", "Amt_Koji"],
        ["s5", "2024-03-01"]] =
      [(["StarterBatch", "Date", "BatchID", "Amt_Kake", "Amt_Koji"].map stripStr).zip
        (["s5", "2024-03-01"] ++ List.replicate (5 - 2) "")] ∧
    ((["StarterBatch", "Date", "BatchID", "Amt_Kake", "Amt_Koji"].map stripStr).zip
        (["s5", "2024-03-01"] ++ List.replicate (5 - 2) "")).drop 2 =
      ((["StarterBatch", "Date", "BatchID", "Amt_Kake", "Amt_Koji"].map stripStr).drop 2).map
        (fun k => (k, "")) ∧
    parse_date "" = none ∧ parse_float "" = none ∧ parse_int "" = none ∧
    parse_bool "" = false :=
  C7_ragged_amended ["StarterBatch", "Date", "BatchID", "Amt_Kake", "Amt_Koji"]
    ["s5", "2024-03-01"] (by decide)

/-- C8: the coercion helpers are total: every successful date parse is a
calendar-valid date, so malformed dates give None; the first matching
format wins, so a slash date that fits month-first is read month-first and
one that does not falls through to day-first; empty and unparsable numeric
cells give None; the boolean helper is true exactly on the lower-cased
words true, yes, 1, x, checked, and false on everything else including the
empty string. -/
theorem C8_parsers_total (s : String) (d : SDate) :
    (parse_date s = some d → validDate d) ∧
    (parse_bool s = true ↔ toLowerStr s ∈ boolWords) ∧
    parse_date "" = none ∧
    parse_date "2024-03-01" = some ⟨2024, 3, 1⟩ ∧
    parse_date "03/04/2024" = some ⟨2024, 3, 4⟩ ∧
    parse_date "25/12/2024" = some ⟨2024, 12, 25⟩ ∧
    parse_date "2024/03/01" = some ⟨2024, 3, 1⟩ ∧
    parse_date "2024-02-30" = none ∧
    parse_date "garbage" = none ∧
    parse_float "" = none ∧ parse_float "abc" = none ∧ parse_float "250" = some ⟨250, 0⟩ ∧
    parse_int "" = none ∧ parse_int "abc" = none ∧ parse_int "250" = some 250 ∧
    parse_bool "" = false ∧ parse_bool "TRUE" = true ∧ parse_bool "Checked" = true ∧
    parse_bool "no" = false := by
  refine ⟨fun h => parse_date_valid h, ?_, by decide⟩
  by_cases hs : s = ""
  · subst hs
    decide
  · rw [parse_bool, if_neg hs, decide_eq_true_eq]

/-- C8 witness: the calendar-validity implication discharged at a concrete
parse. -/
theorem C8_parsers_total_witness : validDate ⟨2024, 3, 1⟩ :=
  (C8_parsers_total "2024-03-01" ⟨2024, 3, 1⟩).1 (by decide)

/-- C10: whenever a cell parses as a float, the integer helper returns that
value truncated toward zero: the floor for nonnegative values and the
ceiling for negative ones; in particular 7.9 coerces to 7 and -7.9 to -7. -/
theorem C10_parse_int_truncates (s : String) (d : DecNum) (h : parse_float s = some d) :
    parse_int s = some (truncDec d) ∧
    (0 ≤ d.toQ → truncDec d = ⌊d.toQ⌋) ∧
    (d.toQ < 0 → truncDec d = ⌈d.toQ⌉) ∧
    parse_int "7.9" = some 7 ∧ parse_int "-7.9" = some (-7) := by
  refine ⟨?_, fun h0 => truncDec_floor h0, fun h0 => truncDec_ceil h0, by decide, by decide⟩
  rw [parse_float] at h
  by_cases hs : s = ""
  · rw [if_pos hs] at h
    cases h
  · rw [if_neg hs] at h
    rw [parse_int, if_neg hs, h]
    rfl

/-- C10 witness: the cell 7.9 parses as the decimal 79 over ten and the
integer helper truncates it to 7. -/
theorem C10_parse_int_truncates_witness :
    parse_int "7.9" = some (truncDec ⟨79, 1⟩) ∧ truncDec ⟨79, 1⟩ = 7 :=
  ⟨(C10_parse_int_truncates "7.9" ⟨79, 1⟩ (by decide)).1, by decide⟩
